import Mathlib

/-!
Verification of the LLM response normalization pipeline of the AI HTTP Tester
repository: the text sanitizer, JSON locator, parser/repair chain
(`server.js`, `extractAndCleanJSON` / `attemptJSONRepair` / the
`/api/ai-analyze` handler) and the result classifier (`script.js`,
`handleAskAI` and its response handlers).

Strings are modelled as `List Char`.  JavaScript's `JSON.parse` is modelled
by a strict recursive-descent parser over the JSON grammar; its error
strings follow the V8 formats the repository's own code inspects
(`"Unexpected token <c> in JSON at position <n>"`,
`"Unexpected end of JSON input"`).  JSON numbers are kept as a decimal
mantissa/exponent pair, which is exact for every literal and preserves
JavaScript truthiness (`0`, `-0`, `0e5` are falsy).
-/

namespace AiHttpTester

/-! ## Characters and elementary string helpers -/

/-- The double-quote character. -/
def quoteC : Char := Char.ofNat 34

/-- The apostrophe (single-quote) character. -/
def apoC : Char := Char.ofNat 39

/-- The backslash character. -/
def bslashC : Char := Char.ofNat 92

/-- The opening-brace character. -/
def lbraceC : Char := Char.ofNat 123

/-- The closing-brace character. -/
def rbraceC : Char := Char.ofNat 125

/-- The opening-bracket character. -/
def lbrackC : Char := Char.ofNat 91

/-- The closing-bracket character. -/
def rbrackC : Char := Char.ofNat 93

/-- JSON whitespace: the four characters `JSON.parse` skips between tokens. -/
def isJsonWs (c : Char) : Bool :=
  c = ' ' ∨ c = Char.ofNat 9 ∨ c = Char.ofNat 10 ∨ c = Char.ofNat 13

/-- JavaScript `\s` / `String.prototype.trim` whitespace (the ASCII part
plus no-break space, which covers every input relevant here). -/
def isJsWs (c : Char) : Bool :=
  c = ' ' ∨ c = Char.ofNat 9 ∨ c = Char.ofNat 10 ∨ c = Char.ofNat 11 ∨
  c = Char.ofNat 12 ∨ c = Char.ofNat 13 ∨ c = Char.ofNat 160

/-- Model of `String.prototype.trimStart`. -/
def trimLeft (s : List Char) : List Char := s.dropWhile isJsWs

/-- Model of `String.prototype.trimEnd`. -/
def trimRight (s : List Char) : List Char := (s.reverse.dropWhile isJsWs).reverse

/-- Model of `String.prototype.trim`. -/
def jsTrim (s : List Char) : List Char := trimLeft (trimRight s)

/-- Index of the first occurrence of `pat` as a contiguous substring of `s`,
modelling `String.prototype.indexOf` for a pattern (`none` for `-1`). -/
def findSub (pat : List Char) : List Char → Option Nat
  | [] => if pat.isEmpty then some 0 else none
  | c :: rest =>
    if pat.isPrefixOf (c :: rest) then some 0
    else (findSub pat rest).map (· + 1)

/-- Model of `String.prototype.includes`. -/
def containsSub (s pat : List Char) : Bool := (findSub pat s).isSome

/-- Model of `workingString.replace(/\\'/g, "'")` (server.js line 233):
every backslash-apostrophe pair becomes a bare apostrophe, scanning left to
right without overlap. -/
def fixEscapes : List Char → List Char
  | [] => []
  | [c] => [c]
  | c :: d :: rest =>
    if c = bslashC ∧ d = apoC then apoC :: fixEscapes rest
    else c :: fixEscapes (d :: rest)

/-! ## The JSON value model -/

/-- Result of a successful `JSON.parse`, as the classifier sees it.
Numbers are a decimal mantissa and a power-of-ten exponent (exact for every
JSON literal); object fields are kept in insertion order with
later duplicate keys overwriting in place, as JavaScript property
assignment does. -/
inductive Json where
  | null
  | bool (b : Bool)
  | num (mant : Int) (exp10 : Int)
  | str (s : List Char)
  | arr (elems : List Json)
  | obj (fields : List (List Char × Json))

/-- JavaScript truthiness of a parsed JSON value: `null`, `false`, zero and
the empty string are falsy; every array and object is truthy. -/
def Json.truthy : Json → Bool
  | .null => false
  | .bool b => b
  | .num m _ => m ≠ 0
  | .str s => ¬ s.isEmpty
  | .arr _ => true
  | .obj _ => true

/-- Truthiness of a possibly-absent property (`undefined` is falsy). -/
def optTruthy : Option Json → Bool
  | none => false
  | some v => v.truthy

/-- Property assignment during object construction: a repeated key
overwrites the earlier value in place, a new key is appended. -/
def insertField (fs : List (List Char × Json)) (k : List Char) (v : Json) :
    List (List Char × Json) :=
  match fs with
  | [] => [(k, v)]
  | (k0, v0) :: rest =>
    if k0 = k then (k0, v) :: rest else (k0, v0) :: insertField rest k v

/-- Property lookup on an object's field list. -/
def lookupField (fs : List (List Char × Json)) (k : List Char) : Option Json :=
  match fs with
  | [] => none
  | (k0, v0) :: rest => if k0 = k then some v0 else lookupField rest k

/-- Model of a JavaScript property read `v.k`: reading from `null` throws a
`TypeError`, reading a missing key from anything else yields `undefined`
(`none`). -/
def jsGet (v : Json) (k : List Char) : Except (List Char) (Option Json) :=
  match v with
  | .null => .error ("Cannot read properties of null".toList)
  | .obj fs => .ok (lookupField fs k)
  | _ => .ok none

/-! ## Model of `JSON.parse`

A strict recursive-descent parser for the JSON grammar (RFC 8259 as
implemented by `JSON.parse`): the four whitespace characters between
tokens, no trailing commas, double-quoted strings with exactly the JSON
escapes (so `\'` is a syntax error), numbers without leading zeros, and no
text after the top-level value.  An error records the offending character
together with how much input remained at it, from which the V8-style
position is rendered. -/

/-- A parse failure: either the input ended early, or character `c` was
unexpected with `rem` characters (counting `c`) left in the input. -/
inductive JsonErr where
  | unexpectedEnd
  | unexpectedChar (c : Char) (rem : Nat)

/-- Decimal digit test. -/
def isDigitC (c : Char) : Bool := '0' ≤ c ∧ c ≤ '9'

/-- Value of a hexadecimal digit. -/
def hexVal (c : Char) : Option Nat :=
  if '0' ≤ c ∧ c ≤ '9' then some (c.toNat - '0'.toNat)
  else if 'a' ≤ c ∧ c ≤ 'f' then some (c.toNat - 'a'.toNat + 10)
  else if 'A' ≤ c ∧ c ≤ 'F' then some (c.toNat - 'A'.toNat + 10)
  else none

/-- Numeric value of a digit string. -/
def digitsToNat (ds : List Char) : Nat :=
  ds.foldl (fun acc c => acc * 10 + (c.toNat - '0'.toNat)) 0

/-- Skip JSON whitespace. -/
def skipWs (s : List Char) : List Char := s.dropWhile isJsonWs

/-- Parse the stated literal tail (`rue`, `alse`, `ull`), yielding `v`. -/
def expectLit : List Char → List Char → Json → Except JsonErr (Json × List Char)
  | [], s, v => .ok (v, s)
  | _ :: _, [], _ => .error .unexpectedEnd
  | l :: ls, c :: cs, v =>
    if c = l then expectLit ls cs v
    else .error (.unexpectedChar c (cs.length + 1))

/-- Parse the body of a JSON string after its opening quote, returning the
decoded characters and the input after the closing quote. -/
def parseStringRest : List Char → Except JsonErr (List Char × List Char)
  | [] => .error .unexpectedEnd
  | c :: rest =>
    if c = quoteC then .ok ([], rest)
    else if c = bslashC then
      match rest with
      | [] => .error .unexpectedEnd
      | e :: rest2 =>
        if e = quoteC ∨ e = bslashC ∨ e = '/' then
          (parseStringRest rest2).map (fun p => (e :: p.1, p.2))
        else if e = 'b' then
          (parseStringRest rest2).map (fun p => (Char.ofNat 8 :: p.1, p.2))
        else if e = 'f' then
          (parseStringRest rest2).map (fun p => (Char.ofNat 12 :: p.1, p.2))
        else if e = 'n' then
          (parseStringRest rest2).map (fun p => (Char.ofNat 10 :: p.1, p.2))
        else if e = 'r' then
          (parseStringRest rest2).map (fun p => (Char.ofNat 13 :: p.1, p.2))
        else if e = 't' then
          (parseStringRest rest2).map (fun p => (Char.ofNat 9 :: p.1, p.2))
        else if e = 'u' then
          match rest2 with
          | h1 :: h2 :: h3 :: h4 :: rest3 =>
            match hexVal h1, hexVal h2, hexVal h3, hexVal h4 with
            | some a, some b, some c2, some d =>
              (parseStringRest rest3).map
                (fun p => (Char.ofNat (((a * 16 + b) * 16 + c2) * 16 + d) :: p.1, p.2))
            | _, _, _, _ => .error (.unexpectedChar e (rest2.length + 1))
          | _ => .error .unexpectedEnd
        else .error (.unexpectedChar e (rest2.length + 1))
    else if c.toNat < 32 then .error (.unexpectedChar c (rest.length + 1))
    else (parseStringRest rest).map (fun p => (c :: p.1, p.2))

/-- Parse an optional exponent part (`e`/`E`, optional sign, digits),
returning its signed value and the rest. -/
def parseExpPart (s : List Char) : Except JsonErr (Int × List Char) :=
  match s with
  | c :: rest =>
    if c = 'e' ∨ c = 'E' then
      let (sgn, r) : Int × List Char :=
        match rest with
        | d :: r2 => if d = '+' then (1, r2) else if d = '-' then (-1, r2) else (1, rest)
        | [] => (1, rest)
      let ds := r.takeWhile isDigitC
      let r2 := r.dropWhile isDigitC
      if ds.isEmpty then
        match r with
        | [] => .error .unexpectedEnd
        | c2 :: r3 => .error (.unexpectedChar c2 (r3.length + 1))
      else .ok (sgn * (digitsToNat ds : Int), r2)
    else .ok (0, s)
  | [] => .ok (0, s)

/-- Parse a JSON number (the input starts with `-` or a digit). -/
def parseNumber (s : List Char) : Except JsonErr (Json × List Char) :=
  let (neg, s1) : Bool × List Char :=
    match s with
    | c :: rest => if c = '-' then (true, rest) else (false, s)
    | [] => (false, s)
  match s1 with
  | [] => .error .unexpectedEnd
  | c :: rest =>
    if ¬ isDigitC c then .error (.unexpectedChar c (rest.length + 1))
    else
      let ds := s1.takeWhile isDigitC
      let r1 := s1.dropWhile isDigitC
      if c = '0' ∧ ds.length > 1 then
        .error (.unexpectedChar (ds.getD 1 ' ') (s1.length - 1))
      else
        let step2 : Except JsonErr (List Char × List Char) :=
          match r1 with
          | d :: r2 =>
            if d = '.' then
              let fs := r2.takeWhile isDigitC
              let r3 := r2.dropWhile isDigitC
              if fs.isEmpty then
                match r2 with
                | [] => .error .unexpectedEnd
                | c2 :: r4 => .error (.unexpectedChar c2 (r4.length + 1))
              else .ok (fs, r3)
            else .ok ([], r1)
          | [] => .ok ([], r1)
        match step2 with
        | .error e => .error e
        | .ok (fs, r3) =>
          match parseExpPart r3 with
          | .error e => .error e
          | .ok (ex, r4) =>
            let mant0 : Int := (digitsToNat (ds ++ fs) : Int)
            .ok (Json.num (if neg then -mant0 else mant0) (ex - (fs.length : Int)), r4)

mutual

/-- Parse one JSON value (leading whitespace allowed), with fuel bounding
recursion depth.  The top-level entry point supplies ample fuel. -/
def parseValue : Nat → List Char → Except JsonErr (Json × List Char)
  | 0, _ => .error .unexpectedEnd
  | f + 1, s =>
    match skipWs s with
    | [] => .error .unexpectedEnd
    | c :: rest =>
      if c = quoteC then (parseStringRest rest).map (fun p => (Json.str p.1, p.2))
      else if c = lbraceC then
        match skipWs rest with
        | [] => .error .unexpectedEnd
        | d :: r2 =>
          if d = rbraceC then .ok (Json.obj [], r2)
          else parseObjectItems f (d :: r2) []
      else if c = lbrackC then
        match skipWs rest with
        | [] => .error .unexpectedEnd
        | d :: r2 =>
          if d = rbrackC then .ok (Json.arr [], r2)
          else parseArrayItems f (d :: r2) []
      else if c = 't' then expectLit ("rue".toList) rest (Json.bool true)
      else if c = 'f' then expectLit ("alse".toList) rest (Json.bool false)
      else if c = 'n' then expectLit ("ull".toList) rest Json.null
      else if c = '-' ∨ isDigitC c then parseNumber (c :: rest)
      else .error (.unexpectedChar c (rest.length + 1))

/-- Parse the remaining items of a non-empty array. -/
def parseArrayItems : Nat → List Char → List Json → Except JsonErr (Json × List Char)
  | 0, _, _ => .error .unexpectedEnd
  | f + 1, s, acc =>
    match parseValue f s with
    | .error e => .error e
    | .ok (v, r) =>
      match skipWs r with
      | [] => .error .unexpectedEnd
      | c :: r2 =>
        if c = ',' then parseArrayItems f r2 (acc ++ [v])
        else if c = rbrackC then .ok (Json.arr (acc ++ [v]), r2)
        else .error (.unexpectedChar c (r2.length + 1))

/-- Parse the remaining members of a non-empty object. -/
def parseObjectItems : Nat → List Char → List (List Char × Json) →
    Except JsonErr (Json × List Char)
  | 0, _, _ => .error .unexpectedEnd
  | f + 1, s, acc =>
    match s with
    | [] => .error .unexpectedEnd
    | c :: rest =>
      if c = quoteC then
        match parseStringRest rest with
        | .error e => .error e
        | .ok (key, r) =>
          match skipWs r with
          | [] => .error .unexpectedEnd
          | d :: r2 =>
            if d = ':' then
              match parseValue f r2 with
              | .error e => .error e
              | .ok (v, r3) =>
                match skipWs r3 with
                | [] => .error .unexpectedEnd
                | e2 :: r4 =>
                  if e2 = ',' then
                    parseObjectItems f (skipWs r4) (insertField acc key v)
                  else if e2 = rbraceC then .ok (Json.obj (insertField acc key v), r4)
                  else .error (.unexpectedChar e2 (r4.length + 1))
            else .error (.unexpectedChar d (r2.length + 1))
      else .error (.unexpectedChar c (rest.length + 1))

end

/-- Parse a complete text: one value with only whitespace after it. -/
def jsonParseE (s : List Char) : Except JsonErr Json :=
  match parseValue (2 * s.length + 4) s with
  | .error e => .error e
  | .ok (v, rest) =>
    match skipWs rest with
    | [] => .ok v
    | c :: r => .error (.unexpectedChar c (r.length + 1))

/-- Render a parse failure the way V8 renders a `SyntaxError` message, given
the total input length (for the position). -/
def renderErr (totalLen : Nat) : JsonErr → List Char
  | .unexpectedEnd => "Unexpected end of JSON input".toList
  | .unexpectedChar c rem =>
    "Unexpected token ".toList ++ [c] ++ " in JSON at position ".toList ++
      (Nat.toDigits 10 (totalLen - rem))

/-- Model of `JSON.parse`: the parsed value, or the thrown `SyntaxError`'s
message. -/
def jsonParse (s : List Char) : Except (List Char) Json :=
  (jsonParseE s).mapError (renderErr s.length)

/-! ## Text Sanitizer and JSON Locator (`extractAndCleanJSON`, server.js 180-220) -/

/-- The opening reasoning tag, lowercase as in the source regex. -/
def openThink : List Char := "<think>".toList

/-- The closing reasoning tag. -/
def closeThink : List Char := "</think>".toList

/-- Worker for `text.replace(/<think>[\s\S]*?<\/think>/g, '')` (server.js
line 183): repeatedly delete from the first `<think>` to the earliest
`</think>` after it (the non-greedy match), resuming after the deleted
block; if either tag is missing the rest is kept verbatim.  Note the source
regex has no `i` flag, so matching is case-sensitive. -/
def stripThinkTagsGo : Nat → List Char → List Char
  | 0, s => s
  | f + 1, s =>
    match findSub openThink s with
    | none => s
    | some i =>
      let rest := s.drop (i + 7)
      match findSub closeThink rest with
      | none => s
      | some j => s.take i ++ stripThinkTagsGo f (rest.drop (j + 8))

/-- Removal of `<think>...</think>` reasoning blocks. -/
def stripThinkTags (s : List Char) : List Char := stripThinkTagsGo s.length s

/-- Whether the text still contains a complete lowercase
`<think>...</think>` block (an opening tag with a closing tag after it) —
exactly the condition under which the source regex has a match. -/
def containsThinkBlock (s : List Char) : Bool :=
  match findSub openThink s with
  | none => false
  | some i => (findSub closeThink (s.drop (i + 7))).isSome

/-- Case-insensitive literal prefix test (`pat` given lowercase). -/
def startsWithCI (pat s : List Char) : Bool :=
  ((s.take pat.length).map Char.toLower) = pat

/-- The three-backtick fence marker. -/
def fence : List Char := "```".toList

/-- The ```json fence opener. -/
def fenceJson : List Char := "```json".toList

/-- Strip a trailing fence: `.replace(/```\s*$/i, '')` removes a final
three-backtick marker together with any whitespace after it. -/
def stripTrailingFence (s : List Char) : List Char :=
  let t := trimRight s
  if fence.isSuffixOf t then t.take (t.length - 3) else s

/-- Leading/trailing markdown fence stripping followed by `.trim()`
(server.js line 186). -/
def stripFences (s : List Char) : List Char :=
  let s1 := if startsWithCI fenceJson s then (s.drop 7).dropWhile isJsWs else s
  let s2 := if startsWithCI fence s1 then (s1.drop 3).dropWhile isJsWs else s1
  jsTrim (stripTrailingFence s2)

/-- The sanitized text of server.js lines 183-186: reasoning blocks
removed, then trimmed, then fence markers stripped. -/
def cleanedTextOf (text : List Char) : List Char :=
  stripFences (jsTrim (stripThinkTags text))

/-- Interior of the first remaining ```json fenced block
(`/```json\s*([\s\S]*?)```/` followed by `.trim()` on the capture). -/
def matchFencedJson (s : List Char) : Option (List Char) :=
  match findSub fenceJson s with
  | none => none
  | some i =>
    let rest := s.drop (i + 7)
    match findSub fence rest with
    | none => none
    | some j => some (jsTrim (rest.take j))

/-- Interior of the first remaining plain fenced block
(`/```\s*([\s\S]*?)```/` followed by `.trim()`). -/
def matchFencedAny (s : List Char) : Option (List Char) :=
  match findSub fence s with
  | none => none
  | some i =>
    let rest := s.drop (i + 3)
    match findSub fence rest with
    | none => none
    | some j => some (jsTrim (rest.take j))

/-- Index of the last occurrence of character `c`
(`String.prototype.lastIndexOf`). -/
def lastIndexOfC (s : List Char) (c : Char) : Option Nat :=
  (findSub [c] s.reverse).map (fun k => s.length - 1 - k)

/-- The greedy `/\{[\s\S]*\}/` span: from the first `{` to the last `}`,
when the latter comes after the former. -/
def matchObjectSpan (s : List Char) : Option (List Char) :=
  match findSub [lbraceC] s, lastIndexOfC s rbraceC with
  | some i, some j => if i < j then some ((s.drop i).take (j + 1 - i)) else none
  | _, _ => none

/-- Residual AI prefix stripping:
`.replace(/^(json|```json?)\s*/i, '')` then `.replace(/```\s*$/i, '')`. -/
def stripAIPrefixes (s : List Char) : List Char :=
  let s1 :=
    if startsWithCI ("json".toList) s then (s.drop 4).dropWhile isJsWs
    else if startsWithCI fenceJson s then (s.drop 7).dropWhile isJsWs
    else if startsWithCI ("```jso".toList) s then (s.drop 6).dropWhile isJsWs
    else s
  stripTrailingFence s1

/-- Text-before-first-brace removal (server.js lines 206-210). -/
def cutBeforeFirstBrace (s : List Char) : List Char :=
  match findSub [lbraceC] s with
  | some i => if i > 0 then s.drop i else s
  | none => s

/-- Text-after-last-brace removal (server.js lines 213-217). -/
def cutAfterLastBrace (s : List Char) : List Char :=
  match lastIndexOfC s rbraceC with
  | some j => if j + 1 < s.length then s.take (j + 1) else s
  | none => s

/-- Model of `extractAndCleanJSON` (server.js lines 180-220): sanitize,
take a fenced interior if one remains, else hunt for a `{...}` span when
the text does not already start with `{`, strip residual prefixes, and trim
outside the outermost braces. -/
def extractAndCleanJSON (text : List Char) : List Char :=
  let cleanedText := cleanedTextOf text
  let fenced := (matchFencedJson cleanedText).orElse (fun _ => matchFencedAny cleanedText)
  let jsonString0 :=
    match fenced with
    | some t => t
    | none => jsTrim cleanedText
  let jsonString1 :=
    if fenced.isNone ∧ jsonString0.head? ≠ some lbraceC then
      (matchObjectSpan cleanedText).getD jsonString0
    else jsonString0
  jsTrim (cutAfterLastBrace (cutBeforeFirstBrace (stripAIPrefixes jsonString1)))

/-! ## Parser/Repair Chain (`attemptJSONRepair`, server.js 223-330) -/

/-- Split off everything up to the first occurrence of `ch`, failing if it
is absent. -/
def breakAtChar (ch : Char) : List Char → Option (List Char × List Char)
  | [] => none
  | c :: rest =>
    if c = ch then some ([], rest)
    else (breakAtChar ch rest).map (fun p => (c :: p.1, p.2))

/-- Case-insensitive HTTP-method prefix (`POST|GET|PUT|DELETE|PATCH`, tried
in the source regex's alternation order), returning the matched characters
as written and the rest. -/
def methodPrefixAt (s : List Char) : Option (List Char × List Char) :=
  let upEq : List Char → Bool := fun pat => ((s.take pat.length).map Char.toUpper) = pat
  if upEq ("POST".toList) then some (s.take 4, s.drop 4)
  else if upEq ("GET".toList) then some (s.take 3, s.drop 3)
  else if upEq ("PUT".toList) then some (s.take 3, s.drop 3)
  else if upEq ("DELETE".toList) then some (s.take 6, s.drop 6)
  else if upEq ("PATCH".toList) then some (s.take 5, s.drop 5)
  else none

/-- Earliest HTTP-method occurrence not preceded by a double quote
(the `[^"]*?(POST|...)` portion of the inline-example regex). -/
def findMethodSeg : List Char → Option (List Char × List Char × List Char)
  | [] => none
  | c :: rest =>
    if c = quoteC then none
    else
      match methodPrefixAt (c :: rest) with
      | some (m, r) => some ([], m, r)
      | none => (findMethodSeg rest).map (fun p => (c :: p.1, p.2.1, p.2.2))

/-- Earliest `(` not preceded by a double quote (the `[^"]*?\(` portion). -/
def findParenSeg : List Char → Option (List Char × List Char)
  | [] => none
  | c :: rest =>
    if c = quoteC then none
    else if c = '(' then some ([], rest)
    else (findParenSeg rest).map (fun p => (c :: p.1, p.2))

/-- Attempt the inline-example pattern
`/"([^"]*?)"\s*:\s*"([^"]*?)(POST|GET|PUT|DELETE|PATCH)[^"]*?\([^)]*?\)[^"]*?"/gi`
at a position whose opening quote has just been consumed (`t` is the text
after it); on success return the replacement
`"key": "prefixMETHOD request parameter"` and the text after the match. -/
def tryInlineMatch (t : List Char) : Option (List Char × List Char) :=
  match breakAtChar quoteC t with
  | none => none
  | some (key, t1) =>
    match t1.dropWhile isJsWs with
    | [] => none
    | c :: t3 =>
      if c ≠ ':' then none
      else
        match t3.dropWhile isJsWs with
        | [] => none
        | q :: t5 =>
          if q ≠ quoteC then none
          else
            match findMethodSeg t5 with
            | none => none
            | some (pre, m, t6) =>
              match findParenSeg t6 with
              | none => none
              | some (_, t7) =>
                match breakAtChar ')' t7 with
                | none => none
                | some (_, t8) =>
                  match breakAtChar quoteC t8 with
                  | none => none
                  | some (_, t9) =>
                    some (quoteC :: key ++ [quoteC, ':', ' ', quoteC] ++ pre ++ m ++
                      " request parameter".toList ++ [quoteC], t9)

/-- Global replacement driver for the inline-example regex: scan left to
right, replacing each match and resuming after it. -/
def inlineCleanGo : Nat → List Char → List Char
  | 0, s => s
  | _ + 1, [] => []
  | f + 1, c :: rest =>
    if c = quoteC then
      match tryInlineMatch rest with
      | some (rep, after) => rep ++ inlineCleanGo f after
      | none => c :: inlineCleanGo f rest
    else c :: inlineCleanGo f rest

/-- The inline-example cleanup of server.js lines 245-251. -/
def inlineClean (s : List Char) : List Char := inlineCleanGo s.length s

/-- Guard for the inline-example cleanup (server.js line 239): the original
parse error mentions an unexpected quote token or an unexpected string. -/
def inlineGuard (errMsg : List Char) : Bool :=
  containsSub errMsg ("Unexpected token \x27".toList) ∨
  containsSub errMsg ("Unexpected string".toList)

/-- Result shape of `attemptJSONRepair`: `{success: true, data, warning?}`
or `{success: false}`. -/
inductive RepairResult where
  | ok (data : Json) (warning : Option (List Char))
  | fail

/-- Warning attached after escape/inline cleanup. -/
def autoRepairWarning : List Char :=
  "Response was auto-repaired due to formatting issues.".toList

/-- Warning attached after truncation repair. -/
def truncationWarning : List Char :=
  "Response was truncated but repaired. Some data may be incomplete.".toList

/-- Warning attached after balanced-object extraction. -/
def extractionWarning : List Char :=
  "Extracted first complete JSON object from response.".toList

/-- The literal `"payloads": [` marker gating truncation repair. -/
def payloadsMarker : List Char := "\"payloads\": [".toList

/-- The literal `"evidence": [` marker gating truncation repair. -/
def evidenceMarker : List Char := "\"evidence\": [".toList

/-- The closing characters appended by truncation repair: one `]` per
unmatched `[`, then one `}` per unmatched `{` (raw character counts; a
surplus of closers appends nothing, like the source's negative loop
bounds). -/
def truncationClosers (w : List Char) : List Char :=
  List.replicate (w.count lbrackC - w.count rbrackC) rbrackC ++
    List.replicate (w.count lbraceC - w.count rbraceC) rbraceC

/-- Brace-depth scan of server.js lines 304-315: number of characters up to
and including the brace returning the running depth to zero. -/
def braceScanGo : List Char → Int → Nat → Option Nat
  | [], _, _ => none
  | c :: rest, depth, consumed =>
    let d2 := if c = lbraceC then depth + 1 else if c = rbraceC then depth - 1 else depth
    if d2 = 0 then some (consumed + 1) else braceScanGo rest d2 (consumed + 1)

/-- The first balanced `{...}` span starting at the first `{`. -/
def extractFirstObject (w : List Char) : Option (List Char) :=
  match findSub [lbraceC] w with
  | none => none
  | some i =>
    let tail := w.drop i
    (braceScanGo tail 0 0).map (fun n => tail.take n)

/-- Balanced-object extraction strategy (server.js lines 300-326). -/
def extractStep (w : List Char) : RepairResult :=
  match extractFirstObject w with
  | none => .fail
  | some ex =>
    match jsonParse ex with
    | .ok d => .ok d (some extractionWarning)
    | .error _ => .fail

/-- The working string after the unconditional escape cleanup and the
guarded inline-example cleanup (the state of `workingString` at server.js
line 256). -/
def workingStringOf (jsonString : List Char) (originalErrorMsg : List Char) :
    List Char :=
  let hasInvalidEscapes := containsSub jsonString [bslashC, apoC]
  let w1 := if hasInvalidEscapes then fixEscapes jsonString else jsonString
  if inlineGuard originalErrorMsg then inlineClean w1 else w1

/-- Model of `attemptJSONRepair` (server.js lines 223-330): escape cleanup,
guarded inline-example cleanup, reparse; then truncation repair when a
known array marker is present; then balanced-object extraction. -/
def attemptJSONRepair (jsonString : List Char) (originalErrorMsg : List Char) :
    RepairResult :=
  let hasInvalidEscapes := containsSub jsonString [bslashC, apoC]
  let w := workingStringOf jsonString originalErrorMsg
  match jsonParse w with
  | .ok d =>
    .ok d
      (if hasInvalidEscapes ∨ containsSub originalErrorMsg ("Unexpected token \x27".toList)
        then some autoRepairWarning else none)
  | .error _ =>
    if containsSub w payloadsMarker ∨ containsSub w evidenceMarker then
      match jsonParse (w ++ truncationClosers w) with
      | .ok d => .ok d (some truncationWarning)
      | .error _ => extractStep w
    else extractStep w

/-- The error message of the extraction strategy's parse, when it fails. -/
def extractErrors (w : List Char) : List (List Char) :=
  match extractFirstObject w with
  | none => []
  | some ex =>
    match jsonParse ex with
    | .ok _ => []
    | .error e => [e]

/-- The parser error messages raised, in order, by the failed parse
attempts inside `attemptJSONRepair` (the messages the source logs at lines
268, 295 and 325). -/
def repairAttemptErrors (jsonString : List Char) (originalErrorMsg : List Char) :
    List (List Char) :=
  let w := workingStringOf jsonString originalErrorMsg
  match jsonParse w with
  | .ok _ => []
  | .error e1 =>
    e1 ::
      (if containsSub w payloadsMarker ∨ containsSub w evidenceMarker then
        match jsonParse (w ++ truncationClosers w) with
        | .ok _ => []
        | .error e2 => e2 :: extractErrors w
      else extractErrors w)

/-- The user-facing hint of the final fallback (server.js line 627). -/
def hintText : List Char :=
  "The AI response could not be parsed as JSON. The full response is shown above.".toList

/-- The parse half of the `/api/ai-analyze` handler (server.js lines
595-630): direct parse, then repair, then the plain-message fallback
object; returns `parsedResponse` and the advisory `warning`. -/
def chainParse (jsonString aiMessage : List Char) : Json × Option (List Char) :=
  match jsonParse jsonString with
  | .ok d => (d, none)
  | .error errMsg =>
    match attemptJSONRepair jsonString errMsg with
    | .ok d w => (d, w)
    | .fail =>
      (Json.obj [("message".toList, Json.str aiMessage),
                 ("parseError".toList, Json.str errMsg),
                 ("hint".toList, Json.str hintText)], none)

/-- Full server-side normalization of one model reply: locate, then parse
with repairs. -/
def aiAnalyze (aiMessage : List Char) : Json × Option (List Char) :=
  chainParse (extractAndCleanJSON aiMessage) aiMessage

/-! ## Result Classifier (`handleAskAI` and its handlers, script.js)

The dispatch of script.js lines 136-191 is factored into `routeOf` (the
`if`-chain's branch conditions, in source order, on JavaScript truthiness)
and one execution function per branch, each modelling its handler far
enough to decide whether it throws a `TypeError` and what it renders.
Exceptions are `Except.error`; in the browser they are caught by
`handleAskAI`'s surrounding `try`/`catch`. -/

/-- Which branch of the `handleAskAI` dispatch runs. -/
inductive Route where
  | parseFail
  | combined
  | injection
  | payload
  | verdict
  | structured
  | free
deriving DecidableEq

/-- The branch conditions of script.js lines 137, 150, 153, 155, 157, 159
and 176, in order: each test is JavaScript truthiness of a property read
(which itself throws on `null` data). -/
def routeOf (d : Json) : Except (List Char) Route := do
  let pe ← jsGet d ("parseError".toList)
  if optTruthy pe then return .parseFail
  else
    let ip ← jsGet d ("injectionPoints".toList)
    let pl ← jsGet d ("payloads".toList)
    if optTruthy ip ∧ optTruthy pl then return .combined
    else if optTruthy ip then return .injection
    else if optTruthy pl then return .payload
    else
      let vd ← jsGet d ("verdict".toList)
      if optTruthy vd then return .verdict
      else
        let ex ← jsGet d ("explanation".toList)
        if optTruthy ex then return .structured
        else return .free

/-- What the classifier hands the UI, with exactly the payload the claims
inspect: the advisory flag of the payload handlers, the verdict string, and
the rendered messages of the fallback branches. -/
inductive Outcome where
  | parseFailureMsg (pe : List Char)
  | combinedReport (advisory : Bool)
  | injectionReport
  | payloadReport (advisory : Bool)
  | analysisVerdict (verdict : List Char)
  | structuredMessage (m : List Char)
  | freeText (m : List Char)
  | freeDump
deriving DecidableEq

mutual

/-- JavaScript string coercion of a parsed value (template literals,
`+` with a string): arrays join with commas (`null` elements as empty),
objects render as `[object Object]`.  Exotic exponents keep an `e` form. -/
def jsDisplay : Json → List Char
  | .null => "null".toList
  | .bool true => "true".toList
  | .bool false => "false".toList
  | .num m e => if e = 0 then (toString m).toList else (toString m).toList ++ 'e' :: (toString e).toList
  | .str s => s
  | .arr xs => jsDisplayList xs
  | .obj _ => "[object Object]".toList

/-- Array `join(",")` with JavaScript's empty rendering of `null`. -/
def jsDisplayList : List Json → List Char
  | [] => []
  | x :: xs =>
    let hd := match x with
      | Json.null => ([] : List Char)
      | v => jsDisplay v
    match xs with
    | [] => hd
    | _ :: _ => hd ++ ',' :: jsDisplayList xs

end

/-- Model of `key.charAt(0).toUpperCase() + key.slice(1)`. -/
def capitalizeKey : List Char → List Char
  | [] => []
  | c :: rest => Char.toUpper c :: rest

/-- The string-valued-sibling suffix of the generic structured message
(script.js lines 169-173): every field other than `explanation` and
`status` whose value is a string, in insertion order. -/
def structuredTail (fs : List (List Char × Json)) : List Char :=
  fs.foldl
    (fun acc kv =>
      match kv.2 with
      | Json.str s =>
        if kv.1 ≠ "explanation".toList ∧ kv.1 ≠ "status".toList then
          acc ++ '\n' :: (capitalizeKey kv.1 ++ ": ".toList ++ s)
        else acc
      | _ => acc)
    []

/-- The generic structured message of script.js lines 159-175: the
explanation, a `Status:` line when `status` is truthy, then the
string-valued siblings. -/
def structuredMsgOf (fs : List (List Char × Json)) : List Char :=
  let base := jsDisplay ((lookupField fs ("explanation".toList)).getD Json.null)
  let base2 :=
    match lookupField fs ("status".toList) with
    | some st => if st.truthy then base ++ "\n\nStatus: ".toList ++ jsDisplay st else base
    | none => base
  base2 ++ structuredTail fs

/-- The banner prefixed when an unparsed reply still contains a ```json
fence (script.js lines 181-183). -/
def fenceBanner : List Char :=
  "Received JSON response but failed to parse. Check console for details.\n\nRaw response:\n".toList

/-- Fallback display text: banner plus text when the text contains a
```json fence. -/
def withBanner (s : List Char) : List Char :=
  if containsSub s fenceJson then fenceBanner ++ s else s

/-- Whether a parsed element is not `null` (reading a property of `null`
throws). -/
def notNullElem : Json → Bool
  | Json.null => false
  | _ => true

/-- Whether a parsed element is a string (only strings have
`.substring`). -/
def isStrElem : Json → Bool
  | Json.str _ => true
  | _ => false

/-- The parse-failure display path (script.js lines 137-147): always
renders, never throws. -/
def execParseFail (d : Json) : Except (List Char) Outcome := do
  let pe ← jsGet d ("parseError".toList)
  return .parseFailureMsg (jsDisplay (pe.getD Json.null))

/-- `handleInjectionPointsResponse` (script.js 658-682):
`injectionPoints.forEach` requires an array, and each `point.name` read
requires a non-`null` element. -/
def execInjection (d : Json) : Except (List Char) Outcome := do
  let _ ← jsGet d ("explanation".toList)
  let ip ← jsGet d ("injectionPoints".toList)
  match ip with
  | some (Json.arr pts) =>
    if pts.all notNullElem then return .injectionReport
    else .error ("Cannot read properties of null".toList)
  | _ => .error ("injectionPoints.forEach is not a function".toList)

/-- `handlePayloadsResponse` (script.js 745-775): the advisory fires for
more than 20 payloads; `payloads.forEach` requires an array and
`payload.substring` requires string elements. -/
def execPayloads (d : Json) : Except (List Char) Outcome := do
  let _ ← jsGet d ("explanation".toList)
  let pl ← jsGet d ("payloads".toList)
  match pl with
  | some (Json.arr xs) =>
    if xs.all isStrElem then return .payloadReport (xs.length > 20)
    else .error ("payload.substring is not a function".toList)
  | _ => .error ("payloads.forEach is not a function".toList)

/-- `handleCombinedResponse` (script.js 687-727): advisory as for
payloads; the injection-point selector update runs before the payload
dropdown update. -/
def execCombined (d : Json) : Except (List Char) Outcome := do
  let _ ← jsGet d ("explanation".toList)
  let pl ← jsGet d ("payloads".toList)
  let ip ← jsGet d ("injectionPoints".toList)
  match ip with
  | some (Json.arr pts) =>
    if pts.all notNullElem then
      match pl with
      | some (Json.arr xs) =>
        if xs.all isStrElem then return .combinedReport (xs.length > 20)
        else .error ("payload.substring is not a function".toList)
      | _ => .error ("payloads.forEach is not a function".toList)
    else .error ("Cannot read properties of null".toList)
  | _ => .error ("injectionPoints.forEach is not a function".toList)

/-- `handleAnalysisResponse` / `displayAnalysisResult` (script.js 780-865):
`verdict.toLowerCase()` requires a string verdict (checked first), then
`evidence.forEach` requires an array; `confidence` is only interpolated. -/
def execVerdict (d : Json) : Except (List Char) Outcome := do
  let _ ← jsGet d ("explanation".toList)
  let vd ← jsGet d ("verdict".toList)
  match vd with
  | some (Json.str sv) =>
    let _ ← jsGet d ("confidence".toList)
    let ev ← jsGet d ("evidence".toList)
    match ev with
    | some (Json.arr _) => return .analysisVerdict sv
    | _ => .error ("evidence.forEach is not a function".toList)
  | _ => .error ("verdict.toLowerCase is not a function".toList)

/-- The generic structured-message branch (script.js 159-175): pure
string building, never throws. -/
def execStructured (d : Json) : Except (List Char) Outcome :=
  match d with
  | Json.obj fs => .ok (.structuredMessage (structuredMsgOf fs))
  | _ => .ok (.structuredMessage [])

/-- The terminal fallback branch (script.js 176-191):
`data.data.message || data.rawMessage`, the ```json banner, and the
object dump when both are empty; `.includes` throws on a truthy non-string
`message`. -/
def execFree (d : Json) (raw : List Char) : Except (List Char) Outcome := do
  let mf ← jsGet d ("message".toList)
  match mf with
  | some v =>
    if v.truthy then
      match v with
      | Json.str s => return .freeText (withBanner s)
      | _ => .error ("displayMessage.includes is not a function".toList)
    else if ¬ raw.isEmpty then return .freeText (withBanner raw)
    else return .freeDump
  | none =>
    if ¬ raw.isEmpty then return .freeText (withBanner raw)
    else return .freeDump

/-- The classifier of script.js lines 136-191 on the parsed value `d` and
the raw reply `raw`: route by truthiness, then run the branch's handler. -/
def handleAskAIData (d : Json) (raw : List Char) : Except (List Char) Outcome := do
  let r ← routeOf d
  match r with
  | .parseFail => execParseFail d
  | .combined => execCombined d
  | .injection => execInjection d
  | .payload => execPayloads d
  | .verdict => execVerdict d
  | .structured => execStructured d
  | .free => execFree d raw

/-! ## Supporting lemmas -/

theorem findSub_le_length (pat : List Char) :
    ∀ (s : List Char) (i : Nat), findSub pat s = some i → i ≤ s.length := by
  intro s
  induction s with
  | nil =>
    intro i h
    unfold findSub at h
    split at h
    · simp at h
      omega
    · exact absurd h (by simp)
  | cons c rest ih =>
    intro i h
    unfold findSub at h
    split at h
    · simp at h
      omega
    · simp only [Option.map_eq_some'] at h
      obtain ⟨k, hk, rfl⟩ := h
      have := ih k hk
      simp only [List.length_cons]
      omega

theorem findSub_isPrefixOf (pat : List Char) :
    ∀ (s : List Char) (i : Nat), findSub pat s = some i →
      pat.isPrefixOf (s.drop i) = true := by
  intro s
  induction s with
  | nil =>
    intro i h
    unfold findSub at h
    split at h
    · simp at h
      subst h
      simp_all [List.isEmpty_iff]
    · exact absurd h (by simp)
  | cons c rest ih =>
    intro i h
    unfold findSub at h
    split at h
    · simp at h
      subst h
      assumption
    · simp only [Option.map_eq_some'] at h
      obtain ⟨k, hk, rfl⟩ := h
      simpa using ih k hk

theorem findSub_single_none {c : Char} :
    ∀ {s : List Char}, findSub [c] s = none → c ∉ s := by
  intro s
  induction s with
  | nil => intro _ h; exact absurd h (by simp)
  | cons d rest ih =>
    intro h hmem
    unfold findSub at h
    split at h
    · exact absurd h (by simp)
    · rename_i hnp
      simp only [Option.map_eq_none'] at h
      rcases List.mem_cons.mp hmem with rfl | hm
      · exact hnp (by simp [List.isPrefixOf])
      · exact ih h hm

theorem isPrefixOf_single_head {c : Char} {t : List Char}
    (h : List.isPrefixOf [c] t = true) : t.head? = some c := by
  cases t with
  | nil => simp [List.isPrefixOf] at h
  | cons d u =>
    simp only [List.isPrefixOf, List.isPrefixOf_nil_left, Bool.and_true, beq_iff_eq] at h
    subst h
    rfl

theorem renderErr_head (n : Nat) (e : JsonErr) : ∃ t, renderErr n e = 'U' :: t := by
  cases e
  · exact ⟨_, rfl⟩
  · exact ⟨_, rfl⟩

theorem jsonParse_error_ne_nil {s e : List Char} (h : jsonParse s = .error e) :
    e ≠ [] := by
  unfold jsonParse at h
  cases hh : jsonParseE s with
  | ok v => rw [hh] at h; exact absurd h (by simp [Except.mapError])
  | error err =>
    rw [hh] at h
    simp only [Except.mapError] at h
    obtain ⟨t, ht⟩ := renderErr_head s.length err
    cases h
    simp [ht]

theorem trimRight_front (l : List Char) : trimRight l <+: l := by
  unfold trimRight
  have h := List.dropWhile_suffix (l := l.reverse) isJsWs
  have h2 : (List.dropWhile isJsWs l.reverse).reverse <+: l.reverse.reverse :=
    List.reverse_prefix.mpr h
  simpa using h2

theorem jsTrim_sublist (l : List Char) : (jsTrim l).Sublist l := by
  unfold jsTrim trimLeft
  exact (List.dropWhile_sublist _).trans (trimRight_front l).sublist

theorem mem_of_mem_jsTrim {x : Char} {l : List Char} (h : x ∈ jsTrim l) : x ∈ l :=
  (jsTrim_sublist l).subset h

theorem head?_of_front {l₁ l₂ : List Char} (h : l₁ <+: l₂) (hne : l₁ ≠ []) :
    l₂.head? = l₁.head? := by
  obtain ⟨r, rfl⟩ := h
  cases l₁ with
  | nil => exact absurd rfl hne
  | cons a t => rfl

theorem getLast?_of_suffix {l₁ l₂ : List Char} (h : l₁ <:+ l₂) (hne : l₁ ≠ []) :
    l₂.getLast? = l₁.getLast? := by
  obtain ⟨p, rfl⟩ := h
  rw [List.getLast?_append]
  cases hl : l₁.getLast? with
  | none =>
    cases l₁ with
    | nil => exact absurd rfl hne
    | cons a t => simp [List.getLast?_eq_get?] at hl
  | some y => rfl

theorem head?_mem {x : Char} {l : List Char} (h : l.head? = some x) : x ∈ l := by
  cases l with
  | nil => simp at h
  | cons a t => simp at h; subst h; exact List.mem_cons_self _ _

theorem getLast?_mem' {x : Char} {l : List Char} (h : l.getLast? = some x) : x ∈ l := by
  rw [← List.head?_reverse] at h
  have := head?_mem h
  simpa using this

theorem jsTrim_head_of_not_ws {x : Char} {l : List Char}
    (h : l.head? = some x) (hx : isJsWs x = false) : (jsTrim l).head? = some x := by
  have hmem : x ∈ l := head?_mem h
  have hne : trimRight l ≠ [] := by
    unfold trimRight
    simp only [ne_eq, List.reverse_eq_nil_iff, List.dropWhile_eq_nil_iff]
    intro hall
    have := hall x (by simpa using hmem)
    rw [hx] at this
    exact Bool.false_ne_true this
  have hhead : (trimRight l).head? = some x := by
    have heq := head?_of_front (trimRight_front l) hne
    rw [h] at heq
    exact heq.symm
  unfold jsTrim trimLeft
  cases ht : trimRight l with
  | nil => exact absurd ht hne
  | cons a t =>
    rw [ht] at hhead
    simp only [List.head?_cons, Option.some.injEq] at hhead
    subst hhead
    rw [List.dropWhile_cons, hx]
    rfl

theorem jsTrim_getLast_of_not_ws {x : Char} {l : List Char}
    (h : l.getLast? = some x) (hx : isJsWs x = false) :
    (jsTrim l).getLast? = some x := by
  have hmem : x ∈ l := getLast?_mem' h
  have htr : trimRight l = l := by
    have hrh : l.reverse.head? = some x := by rw [List.head?_reverse]; exact h
    cases hr : l.reverse with
    | nil => rw [hr] at hrh; exact absurd hrh (by simp)
    | cons a t =>
      rw [hr] at hrh
      simp only [List.head?_cons, Option.some.injEq] at hrh
      subst hrh
      unfold trimRight
      rw [hr, List.dropWhile_cons, hx]
      simp only [Bool.false_eq_true, if_false]
      rw [← hr, List.reverse_reverse]
  unfold jsTrim
  rw [htr]
  unfold trimLeft
  have hne : List.dropWhile isJsWs l ≠ [] := by
    simp only [ne_eq, List.dropWhile_eq_nil_iff]
    intro hall
    have := hall x hmem
    rw [hx] at this
    exact Bool.false_ne_true this
  rw [getLast?_of_suffix (List.dropWhile_suffix isJsWs) hne] at h
  exact h

/-! ## Claim C9 -/

/-- C9: for every input string that is already valid JSON text, the
Parser/Repair Chain succeeds via the direct-parse path, returning the
parsed value unchanged with no warning attached. -/
theorem claim_C9 (s raw : List Char) (d : Json) (h : jsonParse s = .ok d) :
    chainParse s raw = (d, none) := by
  unfold chainParse
  rw [h]

/-- Witness for C9 at the concrete valid object text. -/
theorem claim_C9_witness :
    chainParse ("\x7b\"a\": 1\x7d".toList) ("raw".toList) =
      (Json.obj [("a".toList, Json.num 1 0)], none) :=
  claim_C9 _ _ _ rfl

/-! ## Claim C6 -/

/-- C6 counterexample: on the truncated candidate the chain's fallback
carries the error message of the initial direct parse
(`Unexpected end of JSON input`), while the last parser error raised during
repair is the different message of the truncation-repair reparse
(`Unexpected token ] in JSON at position 16`); so `parseError` is not the
last parser error message. -/
theorem claim_C6_counterexample :
    jsonParse ("\x7b\"evidence\": [1,".toList) =
      .error ("Unexpected end of JSON input".toList) ∧
    chainParse ("\x7b\"evidence\": [1,".toList) ("RAW".toList) =
      (Json.obj [("message".toList, Json.str ("RAW".toList)),
                 ("parseError".toList, Json.str ("Unexpected end of JSON input".toList)),
                 ("hint".toList, Json.str hintText)], none) ∧
    (("Unexpected end of JSON input".toList) ::
        repairAttemptErrors ("\x7b\"evidence\": [1,".toList)
          ("Unexpected end of JSON input".toList)).getLast? =
      some ("Unexpected token ] in JSON at position 16".toList) ∧
    ("Unexpected token ] in JSON at position 16".toList) ≠
      ("Unexpected end of JSON input".toList) :=
  ⟨rfl, rfl, rfl, by decide⟩

/-- C6 (amended): when the direct parse and every repair strategy fail, the
normalization returns, as a normal value and never by raising, a fallback
object whose `message` is the original reply verbatim, whose `parseError`
is the non-empty error message of the initial direct parse, and which
carries the user-facing hint. -/
theorem claim_C6 (raw e : List Char)
    (hp : jsonParse (extractAndCleanJSON raw) = .error e)
    (hr : attemptJSONRepair (extractAndCleanJSON raw) e = .fail) :
    aiAnalyze raw =
      (Json.obj [("message".toList, Json.str raw),
                 ("parseError".toList, Json.str e),
                 ("hint".toList, Json.str hintText)], none) ∧ e ≠ [] := by
  refine ⟨?_, jsonParse_error_ne_nil hp⟩
  unfold aiAnalyze chainParse
  rw [hp]
  simp only [hr]

/-- Witness for C6 at the unparseable reply `hello world, not json`. -/
theorem claim_C6_witness :
    aiAnalyze ("hello world, not json".toList) =
      (Json.obj [("message".toList, Json.str ("hello world, not json".toList)),
                 ("parseError".toList,
                   Json.str ("Unexpected token h in JSON at position 0".toList)),
                 ("hint".toList, Json.str hintText)], none) ∧
    ("Unexpected token h in JSON at position 0".toList) ≠ ([] : List Char) :=
  claim_C6 _ _ rfl rfl

/-! ## Claim C3 -/

/-- C3: whenever the candidate contains the invalid sequence
backslash-apostrophe, the repair chain replaces every occurrence with a
bare apostrophe, re-parses, and on success attaches the auto-repair
warning; in particular the claimed example yields
`explanation = test 'quoted' text` with that warning. -/
theorem claim_C3 :
    (∀ (s errMsg : List Char) (d : Json),
        containsSub s [bslashC, apoC] = true →
        jsonParse (workingStringOf s errMsg) = .ok d →
        attemptJSONRepair s errMsg = .ok d (some autoRepairWarning)) ∧
    chainParse ("\x7b\"explanation\": \"test \\\x27quoted\\\x27 text\"\x7d".toList)
        ("raw".toList) =
      (Json.obj [("explanation".toList, Json.str ("test \x27quoted\x27 text".toList))],
        some autoRepairWarning) := by
  constructor
  · intro s errMsg d hinv hparse
    unfold attemptJSONRepair
    simp only [hinv, hparse]
    simp
  · rfl

/-- Witness for C3: the universal half applied at the claimed example. -/
theorem claim_C3_witness :
    attemptJSONRepair ("\x7b\"explanation\": \"test \\\x27quoted\\\x27 text\"\x7d".toList)
        ("Unexpected token \x27 in JSON at position 23".toList) =
      .ok (Json.obj [("explanation".toList, Json.str ("test \x27quoted\x27 text".toList))])
        (some autoRepairWarning) :=
  claim_C3.1 _ _ _ rfl rfl

/-! ## Claim C2 -/

/-- C2: truncation repair is attempted exactly when the working string
(after escape and inline cleanup, once the cleaned reparse has failed)
contains `"payloads": [` or `"evidence": [`; it appends exactly the
closers demanded by the unmatched-bracket and unmatched-brace counts and
re-parses, falling through to extraction on failure; with neither marker
the step is skipped silently.  The claimed example returns
`payloads = ["a","b"]` with the truncation warning. -/
theorem claim_C2 :
    (∀ (s errMsg e : List Char),
        jsonParse (workingStringOf s errMsg) = .error e →
        ((containsSub (workingStringOf s errMsg) payloadsMarker = true ∨
          containsSub (workingStringOf s errMsg) evidenceMarker = true) →
          attemptJSONRepair s errMsg =
            (match jsonParse (workingStringOf s errMsg ++
                truncationClosers (workingStringOf s errMsg)) with
             | .ok d => RepairResult.ok d (some truncationWarning)
             | .error _ => extractStep (workingStringOf s errMsg))) ∧
        (¬ (containsSub (workingStringOf s errMsg) payloadsMarker = true ∨
            containsSub (workingStringOf s errMsg) evidenceMarker = true) →
          attemptJSONRepair s errMsg = extractStep (workingStringOf s errMsg))) ∧
    chainParse ("\x7b\"payloads\": [\"a\",\"b\"".toList)
        ("\x7b\"payloads\": [\"a\",\"b\"".toList) =
      (Json.obj [("payloads".toList,
          Json.arr [Json.str ("a".toList), Json.str ("b".toList)])],
        some truncationWarning) := by
  constructor
  · intro s errMsg e hparse
    constructor
    · intro hmark
      unfold attemptJSONRepair
      simp only [hparse]
      rw [if_pos hmark]
    · intro hmark
      unfold attemptJSONRepair
      simp only [hparse]
      rw [if_neg hmark]
  · rfl

/-- Witness for C2: both universal halves applied at concrete candidates
(one with the `"payloads": [` marker, one with neither marker). -/
theorem claim_C2_witness :
    attemptJSONRepair ("\x7b\"payloads\": [\"a\",\"b\"".toList)
        ("Unexpected end of JSON input".toList) =
      RepairResult.ok (Json.obj [("payloads".toList,
          Json.arr [Json.str ("a".toList), Json.str ("b".toList)])])
        (some truncationWarning) ∧
    attemptJSONRepair ("\x7b\"other\": [\"a\",\"b\"".toList)
        ("Unexpected end of JSON input".toList) =
      extractStep ("\x7b\"other\": [\"a\",\"b\"".toList) := by
  constructor
  · have h := ((claim_C2.1 ("\x7b\"payloads\": [\"a\",\"b\"".toList)
      ("Unexpected end of JSON input".toList)
      ("Unexpected end of JSON input".toList) rfl).1 (Or.inl rfl))
    exact h.trans rfl
  · exact (claim_C2.1 ("\x7b\"other\": [\"a\",\"b\"".toList)
      ("Unexpected end of JSON input".toList)
      ("Unexpected end of JSON input".toList) rfl).2 (by decide)

/-! ## Classifier helper lemmas -/

theorem optTruthy_some_arr (xs : List Json) : optTruthy (some (Json.arr xs)) = true := rfl

theorem truthy_str_cons (c : Char) (cs : List Char) : (Json.str (c :: cs)).truthy = true := rfl

/-! ## Claim C8 -/

/-- C8 (confirmed): when the recognized field is a `payloads` array of
well-typed (string) entries, the classifier returns a `PayloadReport` with
the incompleteness advisory exactly when the array holds more than 20
entries, and no advisory at 20 or fewer. -/
theorem claim_C8 (fs : List (List Char × Json)) (raw : List Char) (xs : List Json)
    (hpe : optTruthy (lookupField fs ("parseError".toList)) = false)
    (hip : optTruthy (lookupField fs ("injectionPoints".toList)) = false)
    (hpl : lookupField fs ("payloads".toList) = some (Json.arr xs))
    (hstr : xs.all isStrElem = true) :
    handleAskAIData (Json.obj fs) raw = .ok (.payloadReport (decide (xs.length > 20))) := by
  unfold handleAskAIData routeOf execPayloads jsGet
  simp only [hpe, hip, hpl, hstr, optTruthy_some_arr, Bool.false_eq_true, false_and,
    and_true, true_and, and_self, if_false, if_true, eq_self_iff_true,
    Bind.bind, Except.bind, Pure.pure, Except.pure]

/-- Witness for C8: 22 payloads carry the advisory, 3 payloads do not. -/
theorem claim_C8_witness :
    handleAskAIData
        (Json.obj [("payloads".toList, Json.arr (List.replicate 22 (Json.str ['a'])))])
        ("raw".toList) = .ok (.payloadReport true) ∧
    handleAskAIData
        (Json.obj [("payloads".toList, Json.arr (List.replicate 3 (Json.str ['a'])))])
        ("raw".toList) = .ok (.payloadReport false) :=
  ⟨claim_C8 [("payloads".toList, Json.arr (List.replicate 22 (Json.str ['a'])))]
      ("raw".toList) (List.replicate 22 (Json.str ['a'])) rfl rfl rfl rfl,
    claim_C8 [("payloads".toList, Json.arr (List.replicate 3 (Json.str ['a'])))]
      ("raw".toList) (List.replicate 3 (Json.str ['a'])) rfl rfl rfl rfl⟩

/-! ## Claim C10 -/

/-- C10 counterexample: an object that contains a `parseError` field whose
value is falsy (the empty string) is not routed to the parse-failure path;
with a `verdict` sibling it is classified as an `AnalysisVerdict`. -/
theorem claim_C10_counterexample :
    lookupField [("parseError".toList, Json.str []),
        ("verdict".toList, Json.str ("ok".toList)),
        ("confidence".toList, Json.num 90 0),
        ("evidence".toList, Json.arr [])] ("parseError".toList) =
      some (Json.str []) ∧
    handleAskAIData
        (Json.obj [("parseError".toList, Json.str []),
          ("verdict".toList, Json.str ("ok".toList)),
          ("confidence".toList, Json.num 90 0),
          ("evidence".toList, Json.arr [])]) ("raw".toList) =
      .ok (.analysisVerdict ("ok".toList)) :=
  ⟨rfl, rfl⟩

/-- C10 (amended): an object whose `parseError` field is truthy is routed
to the parse-failure display before any classification rule, so it is
never classified as one of the four report variants even when
`injectionPoints`, `payloads` or `verdict` are also present. -/
theorem claim_C10 (fs : List (List Char × Json)) (raw : List Char)
    (h : optTruthy (lookupField fs ("parseError".toList)) = true) :
    handleAskAIData (Json.obj fs) raw =
      .ok (.parseFailureMsg
        (jsDisplay ((lookupField fs ("parseError".toList)).getD Json.null))) := by
  unfold handleAskAIData routeOf execParseFail jsGet
  simp only [h, if_true, Bind.bind, Except.bind, Pure.pure, Except.pure]

/-- Witness for C10: a truthy `parseError` wins over a present `payloads`
array. -/
theorem claim_C10_witness :
    handleAskAIData
        (Json.obj [("parseError".toList, Json.str ("boom".toList)),
          ("payloads".toList, Json.arr [Json.str ['a']])]) ("raw".toList) =
      .ok (.parseFailureMsg ("boom".toList)) :=
  claim_C10 _ _ rfl

/-! ## Claim C1 -/

/-- C1 counterexample: fields are tested by JavaScript truthiness, not
presence — a present-but-empty `verdict` is skipped, so
`{"verdict": "", "explanation": "x"}` routes to the generic structured
message rather than `AnalysisVerdict`; and the terminal fallback shows a
truthy `message` field rather than the raw reply text. -/
theorem claim_C1_counterexample :
    lookupField [("verdict".toList, Json.str []),
        ("explanation".toList, Json.str ['x'])] ("verdict".toList) =
      some (Json.str []) ∧
    routeOf (Json.obj [("verdict".toList, Json.str []),
        ("explanation".toList, Json.str ['x'])]) = .ok Route.structured ∧
    Route.structured ≠ Route.verdict ∧
    handleAskAIData (Json.obj [("message".toList, Json.str ("hi".toList))])
        ("RAW".toList) = .ok (.freeText ("hi".toList)) ∧
    ("hi".toList : List Char) ≠ ("RAW".toList) :=
  ⟨rfl, rfl, by decide, rfl, by decide⟩

/-- C1 (amended): for a parsed object not routed to the parse-failure path,
the classifier picks the variant by the first matching rule in source
order, with each field tested by JavaScript truthiness (a present but
falsy field counts as absent): both `injectionPoints` and `payloads`
truthy gives `CombinedReport`; only `injectionPoints` gives
`InjectionReport`; only `payloads` gives `PayloadReport`; then a truthy
`verdict` gives `AnalysisVerdict`; then a truthy `explanation` gives the
generic structured message; otherwise the terminal fallback shows the
object's truthy `message` string if any (with a banner when it embeds a
```json fence), else the raw reply text. -/
theorem claim_C1 (fs : List (List Char × Json)) (raw : List Char)
    (hpe : optTruthy (lookupField fs ("parseError".toList)) = false) :
    (optTruthy (lookupField fs ("injectionPoints".toList)) = true →
      optTruthy (lookupField fs ("payloads".toList)) = true →
      routeOf (Json.obj fs) = .ok Route.combined) ∧
    (optTruthy (lookupField fs ("injectionPoints".toList)) = true →
      optTruthy (lookupField fs ("payloads".toList)) = false →
      routeOf (Json.obj fs) = .ok Route.injection) ∧
    (optTruthy (lookupField fs ("injectionPoints".toList)) = false →
      optTruthy (lookupField fs ("payloads".toList)) = true →
      routeOf (Json.obj fs) = .ok Route.payload) ∧
    (optTruthy (lookupField fs ("injectionPoints".toList)) = false →
      optTruthy (lookupField fs ("payloads".toList)) = false →
      optTruthy (lookupField fs ("verdict".toList)) = true →
      routeOf (Json.obj fs) = .ok Route.verdict) ∧
    (optTruthy (lookupField fs ("injectionPoints".toList)) = false →
      optTruthy (lookupField fs ("payloads".toList)) = false →
      optTruthy (lookupField fs ("verdict".toList)) = false →
      optTruthy (lookupField fs ("explanation".toList)) = true →
      routeOf (Json.obj fs) = .ok Route.structured ∧
      handleAskAIData (Json.obj fs) raw = .ok (.structuredMessage (structuredMsgOf fs))) ∧
    (optTruthy (lookupField fs ("injectionPoints".toList)) = false →
      optTruthy (lookupField fs ("payloads".toList)) = false →
      optTruthy (lookupField fs ("verdict".toList)) = false →
      optTruthy (lookupField fs ("explanation".toList)) = false →
      routeOf (Json.obj fs) = .ok Route.free ∧
      (∀ (c : Char) (m : List Char),
        lookupField fs ("message".toList) = some (Json.str (c :: m)) →
        handleAskAIData (Json.obj fs) raw = .ok (.freeText (withBanner (c :: m)))) ∧
      (optTruthy (lookupField fs ("message".toList)) = false → raw ≠ [] →
        handleAskAIData (Json.obj fs) raw = .ok (.freeText (withBanner raw)))) := by
  refine ⟨?_, ?_, ?_, ?_, ?_, ?_⟩
  · intro h1 h2
    unfold routeOf jsGet
    simp only [hpe, h1, h2, Bool.false_eq_true, false_and, and_self, and_true, true_and,
      if_false, if_true, eq_self_iff_true, Bind.bind, Except.bind, Pure.pure, Except.pure]
  · intro h1 h2
    unfold routeOf jsGet
    simp only [hpe, h1, h2, Bool.false_eq_true, false_and, and_self, and_true, true_and,
      and_false, if_false, if_true, eq_self_iff_true, Bind.bind, Except.bind, Pure.pure,
      Except.pure]
  · intro h1 h2
    unfold routeOf jsGet
    simp only [hpe, h1, h2, Bool.false_eq_true, false_and, and_self, and_true, true_and,
      if_false, if_true, eq_self_iff_true, Bind.bind, Except.bind, Pure.pure, Except.pure]
  · intro h1 h2 h3
    unfold routeOf jsGet
    simp only [hpe, h1, h2, h3, Bool.false_eq_true, false_and, and_self, and_true, true_and,
      if_false, if_true, eq_self_iff_true, Bind.bind, Except.bind, Pure.pure, Except.pure]
  · intro h1 h2 h3 h4
    constructor
    · unfold routeOf jsGet
      simp only [hpe, h1, h2, h3, h4, Bool.false_eq_true, false_and, and_self, and_true,
        true_and, if_false, if_true, eq_self_iff_true, Bind.bind, Except.bind, Pure.pure,
        Except.pure]
    · unfold handleAskAIData routeOf execStructured jsGet
      simp only [hpe, h1, h2, h3, h4, Bool.false_eq_true, false_and, and_self, and_true,
        true_and, if_false, if_true, eq_self_iff_true, Bind.bind, Except.bind, Pure.pure,
        Except.pure]
  · intro h1 h2 h3 h4
    refine ⟨?_, ?_, ?_⟩
    · unfold routeOf jsGet
      simp only [hpe, h1, h2, h3, h4, Bool.false_eq_true, false_and, and_self, and_true,
        true_and, if_false, if_true, eq_self_iff_true, Bind.bind, Except.bind, Pure.pure,
        Except.pure]
    · intro c m hm
      unfold handleAskAIData routeOf execFree jsGet
      simp only [hpe, h1, h2, h3, h4, hm, truthy_str_cons, Bool.false_eq_true, false_and,
        and_self, and_true, true_and, if_false, if_true, eq_self_iff_true, Bind.bind,
        Except.bind, Pure.pure, Except.pure]
    · intro hm hraw
      unfold handleAskAIData routeOf execFree jsGet
      cases hml : lookupField fs ("message".toList) with
      | none =>
        simp only [hpe, h1, h2, h3, h4, hml, hraw, Bool.false_eq_true, false_and, and_self,
          and_true, true_and, if_false, if_true, eq_self_iff_true, List.isEmpty_iff,
          not_false_iff, Bind.bind, Except.bind, Pure.pure, Except.pure]
      | some v =>
        rw [hml] at hm
        have hv : v.truthy = false := hm
        simp only [hpe, h1, h2, h3, h4, hml, hv, hraw, Bool.false_eq_true, false_and,
          and_self, and_true, true_and, if_false, if_true, eq_self_iff_true,
          List.isEmpty_iff, not_false_iff, Bind.bind, Except.bind, Pure.pure, Except.pure]

/-- Witness for C1: the combined rule and the fallback-message rule at
concrete objects. -/
theorem claim_C1_witness :
    routeOf (Json.obj [("injectionPoints".toList, Json.arr []),
        ("payloads".toList, Json.arr [Json.str ['a']])]) = .ok Route.combined ∧
    handleAskAIData (Json.obj [("note".toList, Json.str ("n".toList)),
        ("message".toList, Json.str ("hello".toList))]) ("RAW".toList) =
      .ok (.freeText ("hello".toList)) :=
  ⟨(claim_C1 [("injectionPoints".toList, Json.arr []),
        ("payloads".toList, Json.arr [Json.str ['a']])] ("raw".toList) rfl).1 rfl rfl,
    ((claim_C1 [("note".toList, Json.str ("n".toList)),
        ("message".toList, Json.str ("hello".toList))] ("RAW".toList) rfl).2.2.2.2.2
      rfl rfl rfl rfl).2.1 'h' ("ello".toList) rfl⟩

/-! ## Claim C7 -/

/-- C7 counterexample: classification can itself fail — the spec's own
example of a missing `evidence` field makes `displayAnalysisResult` call
`evidence.forEach` on `undefined`, a thrown `TypeError` (caught only by
the surrounding chat handler), rather than a degradation to the generic
or free-text variant. -/
theorem claim_C7_counterexample :
    handleAskAIData
        (Json.obj [("verdict".toList, Json.str ("success".toList)),
          ("confidence".toList, Json.num 90 0)]) ("raw".toList) =
      .error ("evidence.forEach is not a function".toList) :=
  rfl

/-- C7 (amended): classification of unrecognized shapes degrades without
an exception — the structured-message branch always succeeds, and the
terminal fallback succeeds whenever a truthy `message` field is a string —
and a well-typed `AnalysisVerdict` shape (string verdict, array evidence)
also succeeds; but ill-typed recognized fields (for example a string
verdict with missing evidence, as in the counterexample) throw a
`TypeError` that only the surrounding chat handler catches. -/
theorem claim_C7 :
    (∀ (fs : List (List Char × Json)) (raw : List Char),
        routeOf (Json.obj fs) = .ok Route.structured →
        handleAskAIData (Json.obj fs) raw =
          .ok (.structuredMessage (structuredMsgOf fs))) ∧
    (∀ (fs : List (List Char × Json)) (raw : List Char),
        routeOf (Json.obj fs) = .ok Route.free →
        (∀ v, lookupField fs ("message".toList) = some v → v.truthy = true →
          ∃ m, v = Json.str m) →
        ∃ o, handleAskAIData (Json.obj fs) raw = .ok o) ∧
    handleAskAIData
        (Json.obj [("verdict".toList, Json.str ("success".toList)),
          ("confidence".toList, Json.num 90 0),
          ("evidence".toList, Json.arr [])]) ("raw".toList) =
      .ok (.analysisVerdict ("success".toList)) := by
  refine ⟨?_, ?_, rfl⟩
  · intro fs raw h
    unfold handleAskAIData
    rw [h]
    rfl
  · intro fs raw h htyped
    unfold handleAskAIData
    rw [h]
    show ∃ o, execFree (Json.obj fs) raw = .ok o
    unfold execFree jsGet
    cases hml : lookupField fs ("message".toList) with
    | none =>
      simp only [hml, Bind.bind, Except.bind]
      split
      · exact ⟨_, rfl⟩
      · exact ⟨_, rfl⟩
    | some v =>
      cases hvt : v.truthy with
      | false =>
        simp only [hml, Bind.bind, Except.bind, hvt, Bool.false_eq_true, if_false]
        split
        · exact ⟨_, rfl⟩
        · exact ⟨_, rfl⟩
      | true =>
        obtain ⟨m, rfl⟩ := htyped v hml hvt
        simp only [hml, Bind.bind, Except.bind, hvt, eq_self_iff_true, if_true]
        exact ⟨_, rfl⟩

/-- Witness for C7: the structured branch at a concrete explanation-only
object. -/
theorem claim_C7_witness :
    handleAskAIData (Json.obj [("explanation".toList, Json.str ("hi".toList))])
        ("raw".toList) =
      .ok (.structuredMessage
        (structuredMsgOf [("explanation".toList, Json.str ("hi".toList))])) :=
  claim_C7.1 _ _ rfl

/-! ## Claim C4 -/

theorem stripThinkTagsGo_of_no_block (f : Nat) (s : List Char)
    (h : containsThinkBlock s = false) : stripThinkTagsGo f s = s := by
  cases f with
  | zero => rfl
  | succ f =>
    unfold stripThinkTagsGo
    unfold containsThinkBlock at h
    cases hfo : findSub openThink s with
    | none => rfl
    | some i =>
      rw [hfo] at h
      have h2 : (findSub closeThink (s.drop (i + 7))).isSome = false := h
      dsimp only []
      cases hfc : findSub closeThink (s.drop (i + 7)) with
      | none => rfl
      | some j => rw [hfc] at h2; simp at h2

theorem stripThinkTagsGo_length_le :
    ∀ (f : Nat) (s : List Char), (stripThinkTagsGo f s).length ≤ s.length := by
  intro f
  induction f with
  | zero => intro s; exact le_refl _
  | succ f ih =>
    intro s
    unfold stripThinkTagsGo
    cases hfo : findSub openThink s with
    | none => exact Nat.le_refl _
    | some i =>
      dsimp only []
      cases hfc : findSub closeThink (s.drop (i + 7)) with
      | none => exact Nat.le_refl _
      | some j =>
        simp only [List.length_append, List.length_take]
        have h1 := ih ((s.drop (i + 7)).drop (j + 8))
        simp only [List.length_drop] at h1
        have h2 : min i s.length ≤ i := Nat.min_le_left _ _
        omega

theorem stripThinkTags_shrinks (s : List Char) (h : containsThinkBlock s = true) :
    (stripThinkTags s).length < s.length := by
  unfold containsThinkBlock at h
  cases hfo : findSub openThink s with
  | none => rw [hfo] at h; simp at h
  | some i =>
    rw [hfo] at h
    have h2 : (findSub closeThink (s.drop (i + 7))).isSome = true := h
    cases hfc : findSub closeThink (s.drop (i + 7)) with
    | none => rw [hfc] at h2; simp at h2
    | some j =>
      have hi7 : i + 7 ≤ s.length := by
        have hp := findSub_isPrefixOf openThink s i hfo
        have hlen := ( List.isPrefixOf_iff_prefix.mp hp).length_le
        simp only [List.length_drop] at hlen
        have hol : openThink.length = 7 := rfl
        rw [hol] at hlen
        have hi := findSub_le_length openThink s i hfo
        omega
      have hj8 : j + 8 ≤ s.length - (i + 7) := by
        have hp := findSub_isPrefixOf closeThink _ j hfc
        have hlen := ( List.isPrefixOf_iff_prefix.mp hp).length_le
        simp only [List.length_drop] at hlen
        have hcl : closeThink.length = 8 := rfl
        rw [hcl] at hlen
        have hj := findSub_le_length closeThink _ j hfc
        simp only [List.length_drop] at hj
        omega
      unfold stripThinkTags
      cases hs : s.length with
      | zero => omega
      | succ n =>
        unfold stripThinkTagsGo
        simp only [hfo, hfc, List.length_append, List.length_take]
        have h1 := stripThinkTagsGo_length_le n ((s.drop (i + 7)).drop (j + 8))
        simp only [List.length_drop] at h1
        have h2 : min i s.length ≤ i := Nat.min_le_left _ _
        omega

/-- C4 counterexample: the source regex at server.js line 183 has no `i`
flag, so an uppercase `<THINK>...</THINK>` block passes the Sanitizer
unchanged (a case-insensitive removal would delete it, as the lowercase
analogue shows); moreover deleting a block can conjoin surrounding text
into a brand-new `<think>` occurrence, so even lowercase inputs containing
blocks can sanitize to text containing `<think>`. -/
theorem claim_C4_counterexample :
    cleanedTextOf ("<THINK>secret</THINK>".toList) = "<THINK>secret</THINK>".toList ∧
    cleanedTextOf ("<think>secret</think>".toList) = [] ∧
    stripThinkTags ("<thi<think>a</think>nk>".toList) = "<think>".toList :=
  ⟨rfl, rfl, rfl⟩

/-- C4 (amended): the Sanitizer removes lowercase `<think>...</think>`
blocks non-greedily, left to right, across lines and multiple occurrences,
case-sensitively: a string with no complete lowercase block passes through
the tag-removal unchanged, any string containing one strictly shrinks, and
the multiline two-block example is removed entirely. -/
theorem claim_C4 :
    (∀ s : List Char, containsThinkBlock s = false → stripThinkTags s = s) ∧
    (∀ s : List Char, containsThinkBlock s = true →
      (stripThinkTags s).length < s.length) ∧
    stripThinkTags ("<think>a\nb</think>X<think>c</think>Y".toList) = "XY".toList :=
  ⟨fun s h => stripThinkTagsGo_of_no_block s.length s h,
    fun s h => stripThinkTags_shrinks s h, rfl⟩

/-- Witness for C4: both universal halves at concrete strings. -/
theorem claim_C4_witness :
    stripThinkTags ("no blocks here".toList) = "no blocks here".toList ∧
    (stripThinkTags ("<think>a</think>".toList)).length <
      ("<think>a</think>".toList).length :=
  ⟨claim_C4.1 _ rfl, claim_C4.2.1 _ rfl⟩

/-! ## Claim C5 -/

theorem cutBefore_head {s : List Char} (h : lbraceC ∈ cutBeforeFirstBrace s) :
    (cutBeforeFirstBrace s).head? = some lbraceC := by
  unfold cutBeforeFirstBrace at h ⊢
  split at h
  · rename_i i heq
    have hp := findSub_isPrefixOf [lbraceC] s i heq
    have hh := isPrefixOf_single_head hp
    by_cases hi : i > 0
    · rw [if_pos hi]
      exact hh
    · rw [if_neg hi]
      have hi0 : i = 0 := by omega
      rw [hi0] at hh
      simpa using hh
  · rename_i heq
    exact absurd h (findSub_single_none heq)

theorem mem_cutAfter {x : Char} {s : List Char} (h : x ∈ cutAfterLastBrace s) :
    x ∈ s := by
  unfold cutAfterLastBrace at h
  split at h
  · split at h
    · exact ( List.take_prefix _ _).sublist.subset h
    · exact h
  · exact h

theorem cutAfter_head (s : List Char) : (cutAfterLastBrace s).head? = s.head? := by
  unfold cutAfterLastBrace
  split
  · split
    · cases s with
      | nil => rfl
      | cons a t => rw [List.take_succ_cons]; rfl
    · rfl
  · rfl

theorem cutAfter_getLast {s : List Char} (h : rbraceC ∈ cutAfterLastBrace s) :
    (cutAfterLastBrace s).getLast? = some rbraceC := by
  unfold cutAfterLastBrace at h ⊢
  split at h
  · rename_i j heq
    unfold lastIndexOfC at heq
    simp only [Option.map_eq_some'] at heq
    obtain ⟨k, hk, hj⟩ := heq
    have hp := findSub_isPrefixOf [rbraceC] s.reverse k hk
    have hh := isPrefixOf_single_head hp
    have hk1 : k + 1 ≤ s.reverse.length := by
      have h1 := ( List.isPrefixOf_iff_prefix.mp hp).length_le
      have h2 := findSub_le_length [rbraceC] s.reverse k hk
      simp only [List.length_drop] at h1
      simp only [List.length_singleton] at h1
      omega
    have hklt : k < s.length := by simpa using hk1
    rw [List.head?_drop] at hh
    have hrev : s.reverse.get? k = s.get? (s.length - 1 - k) := List.get?_reverse hklt
    rw [List.get?_eq_getElem?, List.get?_eq_getElem?] at hrev
    rw [hh] at hrev
    have hget : s[j]? = some rbraceC := by rw [← hj]; exact hrev.symm
    by_cases hj1 : j + 1 < s.length
    · rw [if_pos hj1, List.take_succ, hget]
      simp
    · rw [if_neg hj1]
      rw [List.getLast?_eq_get?, List.get?_eq_getElem?]
      have hjlen : s.length - 1 = j := by omega
      rw [hjlen]
      exact hget
  · rename_i heq
    unfold lastIndexOfC at heq
    simp only [Option.map_eq_none'] at heq
    exact absurd (List.mem_reverse.mpr h) (findSub_single_none heq)

theorem braceInvariant (x : List Char) :
    (lbraceC ∈ jsTrim (cutAfterLastBrace (cutBeforeFirstBrace x)) →
      (jsTrim (cutAfterLastBrace (cutBeforeFirstBrace x))).head? = some lbraceC) ∧
    (rbraceC ∈ jsTrim (cutAfterLastBrace (cutBeforeFirstBrace x)) →
      (jsTrim (cutAfterLastBrace (cutBeforeFirstBrace x))).getLast? = some rbraceC) := by
  constructor
  · intro hmem
    have h1 := mem_of_mem_jsTrim hmem
    have h2 := mem_cutAfter h1
    have h3 := cutBefore_head h2
    have h4 : (cutAfterLastBrace (cutBeforeFirstBrace x)).head? = some lbraceC := by
      rw [cutAfter_head]; exact h3
    exact jsTrim_head_of_not_ws h4 (by decide)
  · intro hmem
    have h1 := mem_of_mem_jsTrim hmem
    have h2 := cutAfter_getLast h1
    exact jsTrim_getLast_of_not_ws h2 (by decide)

/-- C5 counterexample: on a braceless input the Locator returns the
trimmed original text unchanged, so its non-empty output starts with `h`,
not `{`. -/
theorem claim_C5_counterexample :
    extractAndCleanJSON ("hello".toList) = "hello".toList ∧
    (extractAndCleanJSON ("hello".toList)).head? = some 'h' ∧
    'h' ≠ lbraceC :=
  ⟨rfl, rfl, by decide⟩

/-- C5 (amended): for every input, whenever the Locator output contains a
`{` at all its first character is `{`, and whenever it contains a `}` its
last character is `}` (the output is trimmed, so these are also its first
and last non-whitespace characters); an output with no brace — produced
when no `{` was found — is the trimmed original text and satisfies the
stated invariant vacuously. -/
theorem claim_C5 (text : List Char) :
    (lbraceC ∈ extractAndCleanJSON text →
      (extractAndCleanJSON text).head? = some lbraceC) ∧
    (rbraceC ∈ extractAndCleanJSON text →
      (extractAndCleanJSON text).getLast? = some rbraceC) := by
  unfold extractAndCleanJSON
  exact braceInvariant _

/-- Witness for C5 at a padded object text. -/
theorem claim_C5_witness :
    (extractAndCleanJSON ("xx\x7b\"a\": 1\x7dyy".toList)).head? = some lbraceC ∧
    (extractAndCleanJSON ("xx\x7b\"a\": 1\x7dyy".toList)).getLast? = some rbraceC :=
  ⟨(claim_C5 ("xx\x7b\"a\": 1\x7dyy".toList)).1 (by decide),
    (claim_C5 ("xx\x7b\"a\": 1\x7dyy".toList)).2 (by decide)⟩

end AiHttpTester
